import Mathlib

/-!
# Thousanaire-Server: shallow embedding of the game session engine

This file embeds the game-logic portions of the Thousanaire server
(`server.js`, which contains two full revisions of the engine, and the
`part_002` revision with the grace-round logic) as executable Lean
definitions, and proves/refutes the frozen specification claims about
them.

Conventions of the embedding:
* JavaScript numbers holding chip counts / seat indices are modelled as
  `Int` (all arithmetic in the source is integral).  JavaScript's `%`
  operator is truncated remainder, i.e. `Int.tmod` (`(-1) % 4 = -1`).
* The `players` object of a room has exactly the integer keys `0..3`
  (possibly holding `null`); it is modelled as four `Option Player`
  fields, with `playersAt` performing the (possibly out-of-range)
  JavaScript property lookup: `players[-1]` is `undefined`, i.e. `none`.
* Randomness: the server draws dice faces with `Math.random`; the
  embedding receives the drawn faces as an explicit input list.
* Socket emissions (`io.to(..).emit`) are collected in an `Emit` list
  returned next to the new room state.
* Places where the JavaScript would throw a `TypeError` (dereferencing a
  `null` player) are unreachable from the socket handlers, which always
  check seat occupancy first; the embedding returns the room unchanged
  in those branches.
-/

/-- One seated player (first revision of `server.js`; the same object
shape is used by the other revisions, `part_002` adding only a
`seatedTime` timestamp that is read exclusively by the disconnect
handler and is therefore omitted here). -/
structure Player where
  socketId : String
  name : String
  avatar : String
  color : String
  chips : Int
  eliminated : Bool
  danger : Bool
deriving Repr, DecidableEq

/-- A room: four seat slots, the center pot, the index of the player
whose turn it is, and the `gameStarted` flag (the code's only notion of
phase: `false` = Waiting, `true` = Playing; no Finished value exists). -/
structure Room where
  p0 : Option Player
  p1 : Option Player
  p2 : Option Player
  p3 : Option Player
  centerPot : Int
  currentPlayer : Int
  gameStarted : Bool
deriving Repr, DecidableEq

/-- Socket emissions produced by the handlers. -/
inductive Emit where
  | stateUpdate
  | rollResult (seat : Int) (outcomes : List String)
  | requestWildChoice (seat : Int)
  | requestTripleWildChoice (seat : Int)
  | chipTransfer (fromSeat toSeat : Option Int)
  | chipsGained (seat : Int) (count : Int)
  | gameOver (winnerSeat : Option Int) (pot : Int)
  | graceWarning (seat : Int)
  | playerEliminated (seat : Int)
  | historyEntry
deriving Repr, DecidableEq

/-- JavaScript property lookup `room.players[s]`: the object only has
keys `0..3`, any other index yields `undefined`. -/
def playersAt (r : Room) (s : Int) : Option Player :=
  if s = 0 then r.p0
  else if s = 1 then r.p1
  else if s = 2 then r.p2
  else if s = 3 then r.p3
  else none

/-- JavaScript property write `room.players[s] = p`; writing to a key
outside `0..3` never happens in the embedded code paths. -/
def setPlayer (r : Room) (s : Int) (p : Option Player) : Room :=
  if s = 0 then { r with p0 := p }
  else if s = 1 then { r with p1 := p }
  else if s = 2 then { r with p2 := p }
  else if s = 3 then { r with p3 := p }
  else r

/-- `room.players[s].chips += d` (a no-op where the JavaScript would
throw on a `null` player; unreachable from the handlers). -/
def addChips (r : Room) (s : Int) (d : Int) : Room :=
  match playersAt r s with
  | some p => setPlayer r s (some { p with chips := p.chips + d })
  | none => r

/-- `player.chips--; room.players[to].chips++` — the chip transfer
pattern used throughout the source, decrement first. -/
def transfer (r : Room) (a b : Int) : Room :=
  addChips (addChips r a (-1)) b 1

/-- Chip count visible at a seat (0 for an empty slot). -/
def chipsAt (r : Room) (s : Int) : Int :=
  match playersAt r s with
  | some p => p.chips
  | none => 0

/-- `room.players[s] && !room.players[s].eliminated` — seat is occupied
by a non-eliminated player. -/
def isActive (r : Room) (s : Int) : Bool :=
  match playersAt r s with
  | some p => !p.eliminated
  | none => false

/-- `getNextSeat` of the first `server.js` revision: for `i = 1..4`
probe `(seat + i) % 4` (JavaScript `%` = `Int.tmod`, so a negative
`seat` produces negative probes) and return the first occupied,
non-eliminated seat; fall back to `seat` itself. -/
def getNextSeat (room : Room) (seat : Int) : Int :=
  if isActive room ((seat + 1).tmod 4) then (seat + 1).tmod 4
  else if isActive room ((seat + 2).tmod 4) then (seat + 2).tmod 4
  else if isActive room ((seat + 3).tmod 4) then (seat + 3).tmod 4
  else if isActive room ((seat + 4).tmod 4) then (seat + 4).tmod 4
  else seat

/-- `getNextSeat` of the second `server.js` revision and of `part_002`:
identical loop but probing `(seat + i + 4) % 4`. -/
def getNextSeatV2 (room : Room) (seat : Int) : Int :=
  if isActive room ((seat + 1 + 4).tmod 4) then (seat + 1 + 4).tmod 4
  else if isActive room ((seat + 2 + 4).tmod 4) then (seat + 2 + 4).tmod 4
  else if isActive room ((seat + 3 + 4).tmod 4) then (seat + 3 + 4).tmod 4
  else if isActive room ((seat + 4 + 4).tmod 4) then (seat + 4 + 4).tmod 4
  else seat

/-- Seats whose player is present with `chips > 0`, in key order — the
`Object.entries(room.players).filter(([s,p]) => p && p.chips > 0)`
pattern shared by all revisions. -/
def seatsWithChips (r : Room) : List Int :=
  ([0, 1, 2, 3] : List Int).filter (fun s => chipsAt r s > 0)

/-- `countPlayersWithChips` (all revisions). -/
def countPlayersWithChips (r : Room) : Nat :=
  (seatsWithChips r).length

/-- `getLastPlayerWithChips`: the unique seat with chips if exactly one
exists, else `null`. -/
def getLastPlayerWithChips (r : Room) : Option Int :=
  match seatsWithChips r with
  | [s] => some s
  | _ => none

/-- `Object.entries(room.players).find(([s,p]) => p && p.socketId ===
socket.id)` — locate the caller's seat (keys scanned in ascending
order). -/
def findSeatBySocket (r : Room) (sid : String) : Option Int :=
  if (playersAt r 0).any (fun p => p.socketId = sid) then some 0
  else if (playersAt r 1).any (fun p => p.socketId = sid) then some 1
  else if (playersAt r 2).any (fun p => p.socketId = sid) then some 2
  else if (playersAt r 3).any (fun p => p.socketId = sid) then some 3
  else none

/-- A fixed room used by the concrete witnesses/counterexamples: four
seated players, 3 chips each, empty pot, seat 0 to move. -/
def mkPlayer (sid nm : String) (chips : Int) : Player :=
  { socketId := sid, name := nm, avatar := "", color := "",
    chips := chips, eliminated := false, danger := false }

def roomFull : Room :=
  { p0 := some (mkPlayer "s0" "a" 3), p1 := some (mkPlayer "s1" "b" 3),
    p2 := some (mkPlayer "s2" "c" 3), p3 := some (mkPlayer "s3" "d" 3),
    centerPot := 0, currentPlayer := 0, gameStarted := true }

/-! ## First revision of `server.js` (lines 1-421): game logic -/

/-- The danger / elimination update at the top of the first revision's
`finalizeTurn`: on 0 chips, a player already in `danger` is eliminated
(the `danger` flag is left as it is), otherwise `danger` is set; with
chips remaining, `danger` is cleared. -/
def dangerUpdate (p : Player) : Player :=
  if p.chips = 0 then
    if p.danger then { p with eliminated := true }
    else { p with danger := true }
  else { p with danger := false }

/-- `finalizeTurn` (first revision): danger/elimination update for the
rolling seat, then either the game-over emission (when exactly one seat
holds chips — note: the pot is *not* transferred and no phase changes)
or the turn advance. -/
def finalizeTurn (room : Room) (seat : Int) : Room × List Emit :=
  match playersAt room seat with
  | none => (room, [])
  | some player =>
    let room1 := setPlayer room seat (some (dangerUpdate player))
    if countPlayersWithChips room1 = 1 then
      (room1, [Emit.gameOver (getLastPlayerWithChips room1) room1.centerPot,
               Emit.stateUpdate])
    else
      ({ room1 with currentPlayer := getNextSeat room1 seat }, [Emit.stateUpdate])

/-- One step of the `outcomes.forEach` loop in the first revision's
`applyOutcomes`: `Left` pays the next seat clockwise, `Right` pays
`getNextSeat(room, seat - 2)` (the "reverse direction" comment in the
source), `Hub` pays the center pot; each gated on the roller still
holding chips. -/
def applyOutcome1 (room : Room) (seat : Int) (o : String) : Room :=
  match playersAt room seat with
  | none => room
  | some player =>
    if o = "Left" && player.chips > 0 then
      transfer room seat (getNextSeat room seat)
    else if o = "Right" && player.chips > 0 then
      transfer room seat (getNextSeat room (seat - 2))
    else if o = "Hub" && player.chips > 0 then
      { addChips room seat (-1) with centerPot := room.centerPot + 1 }
    else room

/-- `applyOutcomes` (first revision): fold the outcome list, then
finalize the turn. -/
def applyOutcomes (room : Room) (seat : Int) (outcomes : List String) :
    Room × List Emit :=
  finalizeTurn (outcomes.foldl (fun r o => applyOutcome1 r seat o) room) seat

/-- A client-submitted wild action (`{type, from}` in the source). -/
structure WildAction where
  type : String
  fromSeat : Int
deriving Repr, DecidableEq

/-- One step of the `actions.forEach` loop in the first revision's
`applyWildActions`: only `steal` changes state (`cancel` is a comment in
the source); a steal from an occupied seat with chips moves one chip to
the roller. -/
def applyWildAction1 (room : Room) (seat : Int) (a : WildAction) : Room :=
  if a.type = "steal" then
    match playersAt room a.fromSeat with
    | some target => if target.chips > 0 then transfer room a.fromSeat seat else room
    | none => room
  else room

/-- `applyWildActions` (first revision): fold the client-supplied action
list, then finalize the turn.  Nothing else is consulted — there is no
stored pending roll anywhere in the program. -/
def applyWildActions (room : Room) (seat : Int) (actions : List WildAction) :
    Room × List Emit :=
  finalizeTurn (actions.foldl (fun r a => applyWildAction1 r seat a) room) seat

/-- One iteration of the `steal3` loop in the first revision's
`applyTripleWild`: seats are visited in index order `0..3`, self is
skipped, and `min(target.chips, steals)` chips are taken at once. -/
def steal3Step (seat : Int) (acc : Room × Int) (i : Int) : Room × Int :=
  let room := acc.1
  let steals := acc.2
  if i = seat then acc
  else
    match playersAt room i with
    | some target =>
      if target.chips > 0 && steals > 0 then
        let amount := min target.chips steals
        (addChips (addChips room i (-amount)) seat amount, steals - amount)
      else acc
    | none => acc

/-- `applyTripleWild` (first revision): `takePot` moves the pot to the
roller; `steal3` runs the bulk-steal loop; then the turn is finalized. -/
def applyTripleWild (room : Room) (seat : Int) (choice : String) :
    Room × List Emit :=
  match playersAt room seat with
  | none => (room, [])
  | some player =>
    let room1 :=
      if choice = "takePot" then
        { setPlayer room seat (some { player with chips := player.chips + room.centerPot })
          with centerPot := 0 }
      else room
    let room2 :=
      if choice = "steal3" then
        ((([0, 1, 2, 3] : List Int).foldl (steal3Step seat) (room1, 3))).1
      else room1
    finalizeTurn room2 seat

/-- `rollDice` handler (first revision).  The drawn faces come in as the
`drawn` input stream (the source samples them with `Math.random` from
`["Left","Right","Hub","Dottt","Wild"]`); `numDice = min(chips, 3)`
faces are consumed.  Checks performed by the source: room known (callers
of this function supply an existing room), caller seated, caller's seat
is `currentPlayer`, player not eliminated.  A 0-chip current player is
put in `danger` and the turn advances without a roll.  There is no
`gameStarted`/phase check and no pending-roll check. -/
def rollDice (room : Room) (sid : String) (drawn : List String) :
    Room × List Emit :=
  match findSeatBySocket room sid with
  | none => (room, [])
  | some playerSeat =>
    if playerSeat ≠ room.currentPlayer then (room, [])
    else
      match playersAt room playerSeat with
      | none => (room, [])
      | some player =>
        if player.eliminated then (room, [])
        else if player.chips = 0 then
          let r1 := setPlayer room playerSeat (some { player with danger := true })
          ({ r1 with currentPlayer := getNextSeat r1 playerSeat }, [Emit.stateUpdate])
        else
          let room1 := { room with gameStarted := true }
          let numDice := min player.chips 3
          let outcomes := drawn.take numDice.toNat
          let wildCount := (outcomes.filter (fun o => o = "Wild")).length
          if wildCount = 3 then
            (room1, [Emit.requestTripleWildChoice playerSeat])
          else if wildCount > 0 then
            (room1, [Emit.requestWildChoice playerSeat])
          else
            applyOutcomes room1 playerSeat outcomes

/-- `resolveWilds` handler (first revision): look the caller's seat up
by socket id and apply the client-supplied actions directly.  No pending
roll, turn, or phase check of any kind. -/
def resolveWilds (room : Room) (sid : String) (actions : List WildAction) :
    Room × List Emit :=
  match findSeatBySocket room sid with
  | none => (room, [])
  | some playerSeat => applyWildActions room playerSeat actions

/-- `tripleWildChoice` handler (first revision). -/
def tripleWildChoice (room : Room) (sid : String) (choice : String) :
    Room × List Emit :=
  match findSeatBySocket room sid with
  | none => (room, [])
  | some playerSeat => applyTripleWild room playerSeat choice

/-- Sum of all seated chips plus the center pot — the conserved
quantity of claim C2. -/
def total (r : Room) : Int :=
  chipsAt r 0 + chipsAt r 1 + chipsAt r 2 + chipsAt r 3 + r.centerPot

/-! ## `part_002` revision: grace-round engine -/

/-- `part_002` keeps a module-level `graceRoundPlayers` set of
`roomId-seat` keys next to the room map; for a single room this is the
set of seats currently in their grace round. -/
structure StateP2 where
  room : Room
  grace : List Int
deriving Repr, DecidableEq

/-- `finalizeTurn` of `part_002` (lines 498-547): clear `danger` when
the roller has chips again; if exactly one seat holds chips, emit
`gameOver`, pay the pot to the winner and zero it (`currentPlayer` is
left untouched and nothing blocks further commands); otherwise advance
clockwise and keep advancing past eliminated / zero-chip seats (the
source's `while` loop, which does not terminate when every active seat
has zero chips — the embedding bounds it with fuel 8, enough for every
terminating run since seat values repeat after at most 4 steps). -/
def skipZeroChip (room : Room) : Nat → Int → Int
  | 0, cp => cp
  | fuel + 1, cp =>
    match playersAt room cp with
    | some p =>
      if p.eliminated || p.chips = 0 then
        skipZeroChip room fuel (getNextSeatV2 room cp)
      else cp
    | none => cp

def finalizeTurnP2 (st : StateP2) (seat : Int) : StateP2 × List Emit :=
  match playersAt st.room seat with
  | none => (st, [])
  | some player =>
    let playersWithChips := countPlayersWithChips st.room
    let st1 :=
      if player.chips > 0 then
        { room := setPlayer st.room seat (some { player with danger := false }),
          grace := st.grace.filter (fun s => s ≠ seat) }
      else st
    if playersWithChips = 1 then
      let winnerSeat := getLastPlayerWithChips st1.room
      let room2 :=
        match winnerSeat with
        | some w => { addChips st1.room w st1.room.centerPot with centerPot := 0 }
        | none => { st1.room with centerPot := 0 }
      ({ st1 with room := room2 },
       [Emit.gameOver winnerSeat st1.room.centerPot, Emit.stateUpdate])
    else
      let cp1 := getNextSeatV2 st1.room seat
      let cp2 := skipZeroChip st1.room 8 cp1
      ({ st1 with room := { st1.room with currentPlayer := cp2 } }, [Emit.stateUpdate])

/-- `handleZeroChipsOnTurn` of `part_002` (lines 100-143): when the
current player has 0 chips, either declare the game over (one chip
holder left), or run the grace-warning / elimination step; unless the
game ended, advance the turn.  The `Bool` is the source's `ended`
return value. -/
def handleZeroChipsOnTurn (st : StateP2) (seat : Int) :
    (StateP2 × List Emit) × Bool :=
  match playersAt st.room seat with
  | none => ((st, []), false)
  | some player =>
    let playersWithChips := countPlayersWithChips st.room
    if player.chips = 0 ∧ playersWithChips ≤ 1 ∧ playersWithChips = 1 then
      ((st, [Emit.gameOver (getLastPlayerWithChips st.room) st.room.centerPot,
             Emit.stateUpdate]), true)
    else
      let st1 :=
        if player.chips = 0 ∧ ¬ playersWithChips ≤ 1 then
          if st.grace.contains seat then
            { room := setPlayer st.room seat (some { player with eliminated := true }),
              grace := st.grace.filter (fun s => s ≠ seat) }
          else
            { room := setPlayer st.room seat (some { player with danger := true }),
              grace := seat :: st.grace }
        else st
      let es1 : List Emit :=
        if player.chips = 0 ∧ ¬ playersWithChips ≤ 1 then
          if st.grace.contains seat then [Emit.playerEliminated seat]
          else [Emit.graceWarning seat]
        else []
      (({ st1 with room := { st1.room with
            currentPlayer := getNextSeatV2 st1.room seat } },
        es1 ++ [Emit.stateUpdate]), false)

/-- One step of `applyOutcomes` in `part_002` (lines 416-448): like the
first revision, but `Right` is `getNextSeat(room, seat + 2)` through the
`(seat+i+4)%4` scan, and each move emits a `chipTransfer`. -/
def applyOutcomeP2 (acc : Room × List Emit) (seat : Int) (o : String) :
    Room × List Emit :=
  let room := acc.1
  match playersAt room seat with
  | none => acc
  | some player =>
    if o = "Left" && player.chips > 0 then
      let leftSeat := getNextSeatV2 room seat
      (transfer room seat leftSeat,
       acc.2 ++ [Emit.chipTransfer (some seat) (some leftSeat)])
    else if o = "Right" && player.chips > 0 then
      let rightSeat := getNextSeatV2 room (seat + 2)
      (transfer room seat rightSeat,
       acc.2 ++ [Emit.chipTransfer (some seat) (some rightSeat)])
    else if o = "Hub" && player.chips > 0 then
      ({ addChips room seat (-1) with centerPot := room.centerPot + 1 },
       acc.2 ++ [Emit.chipTransfer (some seat) none])
    else acc

/-- `applyOutcomes` of `part_002`: fold the outcomes, emit the history
entry, finalize with the grace-aware `finalizeTurn`. -/
def applyOutcomesP2 (st : StateP2) (seat : Int) (outcomes : List String) :
    StateP2 × List Emit :=
  let (room1, es) :=
    outcomes.foldl (fun acc o => applyOutcomeP2 acc seat o) (st.room, [])
  let (st2, es2) := finalizeTurnP2 { st with room := room1 } seat
  (st2, es ++ [Emit.historyEntry] ++ es2)

/-- `rollDice` handler of `part_002` (lines 263-321): caller must be
seated and be `currentPlayer` and not eliminated; a zero-chip current
player goes through `handleZeroChipsOnTurn` first (and still rolls zero
dice afterwards when the game did not end); then `min(chips,3)` faces
are drawn, and the handler either prompts for (triple) wilds or applies
the outcomes. -/
def rollDiceP2 (st : StateP2) (sid : String) (drawn : List String) :
    StateP2 × List Emit :=
  match findSeatBySocket st.room sid with
  | none => (st, [])
  | some playerSeat =>
    if playerSeat ≠ st.room.currentPlayer then (st, [])
    else
      match playersAt st.room playerSeat with
      | none => (st, [])
      | some player =>
        if player.eliminated then (st, [])
        else
          let ((stZ, esZ), ended) :=
            if player.chips = 0 then handleZeroChipsOnTurn st playerSeat
            else ((st, []), false)
          if ended then (stZ, esZ)
          else
            let st1 := { stZ with room := { stZ.room with gameStarted := true } }
            let numDice := min (chipsAt st1.room playerSeat) 3
            let outcomes := drawn.take numDice.toNat
            let wildCount := (outcomes.filter (fun o => o = "Wild")).length
            if wildCount = 3 then
              (st1, esZ ++ [Emit.stateUpdate, Emit.rollResult playerSeat outcomes,
                            Emit.requestTripleWildChoice playerSeat])
            else if wildCount > 0 then
              (st1, esZ ++ [Emit.stateUpdate, Emit.rollResult playerSeat outcomes,
                            Emit.requestWildChoice playerSeat])
            else
              let (st2, es2) := applyOutcomesP2 st1 playerSeat outcomes
              (st2, esZ ++ [Emit.stateUpdate, Emit.rollResult playerSeat outcomes]
                    ++ es2)

/-! ## Second revision of `server.js` (lines 422-920) -/

/-- `finalizeTurn` of the second revision (lines 503-546): a player at
0 chips is eliminated immediately (no danger stage), `gameOver` is
emitted whenever at most one seat holds chips (without transferring the
pot), otherwise the turn advances. -/
def finalizeTurnRev2 (room : Room) (seat : Int) : Room × List Emit :=
  match playersAt room seat with
  | none => (room, [])
  | some player =>
    let (room1, es1) :=
      if player.chips ≤ 0 && !player.eliminated then
        (setPlayer room seat (some { player with eliminated := true }),
         [Emit.playerEliminated seat])
      else (room, [])
    if countPlayersWithChips room1 ≤ 1 then
      let winnerSeat := (seatsWithChips room1).head?
      (room1, es1 ++ [Emit.gameOver winnerSeat room1.centerPot])
    else
      ({ room1 with currentPlayer := getNextSeatV2 room1 seat },
       es1 ++ [Emit.stateUpdate])

/-- The "new format" body of the second revision's `applyWildActions`
(lines 582-638), which is what `rollDice` reaches when it passes the
outcome array: apply the `steals` list first, then every non-cancelled,
non-`Wild` outcome in order (`Right` through `getNextSeat(room, seat+2)`),
then the history entry and `finalizeTurn`. -/
def applyStealRev2 (seat : Int) (acc : Room × List Emit) (fromSeat : Int) :
    Room × List Emit :=
  match playersAt acc.1 fromSeat with
  | some target =>
    if target.chips > 0 then
      (transfer acc.1 fromSeat seat,
       acc.2 ++ [Emit.chipTransfer (some fromSeat) (some seat)])
    else acc
  | none => acc

def applyOutcomeRev2 (seat : Int) (cancels : List Nat)
    (acc : Room × List Emit) (io : Nat × String) : Room × List Emit :=
  let room := acc.1
  let i := io.1
  let o := io.2
  if cancels.contains i then acc
  else if o = "Wild" then acc
  else
    match playersAt room seat with
    | none => acc
    | some player =>
      if o = "Left" && player.chips > 0 then
        let leftSeat := getNextSeatV2 room seat
        (transfer room seat leftSeat,
         acc.2 ++ [Emit.chipTransfer (some seat) (some leftSeat)])
      else if o = "Right" && player.chips > 0 then
        let rightSeat := getNextSeatV2 room (seat + 2)
        (transfer room seat rightSeat,
         acc.2 ++ [Emit.chipTransfer (some seat) (some rightSeat)])
      else if o = "Hub" && player.chips > 0 then
        ({ addChips room seat (-1) with centerPot := room.centerPot + 1 },
         acc.2 ++ [Emit.chipTransfer (some seat) none])
      else acc

def applyWildActionsRev2 (room : Room) (seat : Int) (outcomes : List String)
    (cancels : List Nat) (steals : List Int) : Room × List Emit :=
  match playersAt room seat with
  | none => (room, [])
  | some _ =>
    let acc1 := steals.foldl (applyStealRev2 seat) (room, [])
    let acc2 := outcomes.enum.foldl (applyOutcomeRev2 seat cancels) acc1
    let (room3, es3) := finalizeTurnRev2 acc2.1 seat
    (room3, acc2.2 ++ [Emit.historyEntry] ++ es3)

/-- The face list of the second revision's `rollDice`:
`["Dottt","Dottt","Dottt","Left","Right","Wild","Hub"]`.  Note the
spelling `"Dottt"`. -/
def diceFacesRev2 : List String :=
  ["Dottt", "Dottt", "Dottt", "Left", "Right", "Wild", "Hub"]

/-- `rollDice` handler of the second revision (lines 773-830): the seat
is simply `room.currentPlayer` (no check of who sent the command);
always rolls 3 dice; counts `"Dot"` faces for the immediate dot gain
(`min(dots, 3 - chips)`, gated on `dots > 0 && chips > 0`); then either
prompts for wilds or applies the outcome array through
`applyWildActions`. -/
def rollDiceRev2 (room : Room) (drawn : List String) : Room × List Emit :=
  let seat := room.currentPlayer
  match playersAt room seat with
  | none => (room, [])
  | some player =>
    if player.eliminated then (room, [])
    else
      let rollResults := drawn.take 3
      let dots : Int := ((rollResults.filter (fun r => r = "Dot")).length : Int)
      let (room1, esGain) :=
        if dots > 0 && player.chips > 0 then
          let chipsToGain := min dots (3 - player.chips)
          (setPlayer room seat (some { player with chips := player.chips + chipsToGain }),
           [Emit.chipsGained seat chipsToGain])
        else (room, [])
      let wildCount := (rollResults.filter (fun r => r = "Wild")).length
      if wildCount > 0 then
        (room1, [Emit.rollResult seat rollResults] ++ esGain
                ++ [Emit.requestWildChoice seat, Emit.stateUpdate])
      else
        let (room2, es2) := applyWildActionsRev2 room1 seat rollResults [] []
        (room2, [Emit.rollResult seat rollResults] ++ esGain ++ es2
                ++ [Emit.stateUpdate])

/-! ## Basic lemmas about the room primitives -/

lemma playersAt_some_cases (r : Room) (s : Int) (p : Player)
    (h : playersAt r s = some p) : s = 0 ∨ s = 1 ∨ s = 2 ∨ s = 3 := by
  by_contra hc
  push_neg at hc
  simp [playersAt, hc.1, hc.2.1, hc.2.2.1, hc.2.2.2] at h

lemma playersAt_setPlayer_self (r : Room) (s : Int) (q : Option Player)
    (h : s = 0 ∨ s = 1 ∨ s = 2 ∨ s = 3) :
    playersAt (setPlayer r s q) s = q := by
  rcases h with rfl | rfl | rfl | rfl <;> simp [playersAt, setPlayer]

lemma playersAt_setPlayer_ne (r : Room) (s : Int) (q : Option Player)
    (t : Int) (h : t ≠ s) :
    playersAt (setPlayer r s q) t = playersAt r t := by
  unfold playersAt setPlayer
  split_ifs <;> simp_all

lemma centerPot_setPlayer (r : Room) (s : Int) (q : Option Player) :
    (setPlayer r s q).centerPot = r.centerPot := by
  unfold setPlayer; split_ifs <;> rfl

lemma currentPlayer_setPlayer (r : Room) (s : Int) (q : Option Player) :
    (setPlayer r s q).currentPlayer = r.currentPlayer := by
  unfold setPlayer; split_ifs <;> rfl

lemma gameStarted_setPlayer (r : Room) (s : Int) (q : Option Player) :
    (setPlayer r s q).gameStarted = r.gameStarted := by
  unfold setPlayer; split_ifs <;> rfl

lemma playersAt_addChips (r : Room) (s d t : Int) :
    playersAt (addChips r s d) t =
      if t = s then (playersAt r t).map (fun p => { p with chips := p.chips + d })
      else playersAt r t := by
  unfold addChips
  cases h : playersAt r s with
  | none =>
    split_ifs with ht
    · subst ht
      simp [h]
    · rfl
  | some p =>
    split_ifs with ht
    · subst ht
      rw [playersAt_setPlayer_self r t _ (playersAt_some_cases r t p h), h]
      rfl
    · exact playersAt_setPlayer_ne r s _ t ht

lemma centerPot_addChips (r : Room) (s d : Int) :
    (addChips r s d).centerPot = r.centerPot := by
  unfold addChips
  cases playersAt r s
  · rfl
  · exact centerPot_setPlayer ..

lemma currentPlayer_addChips (r : Room) (s d : Int) :
    (addChips r s d).currentPlayer = r.currentPlayer := by
  unfold addChips
  cases playersAt r s
  · rfl
  · exact currentPlayer_setPlayer ..

lemma chipsAt_addChips (r : Room) (s d t : Int) :
    chipsAt (addChips r s d) t =
      if t = s ∧ (playersAt r s).isSome then chipsAt r t + d
      else chipsAt r t := by
  unfold chipsAt
  rw [playersAt_addChips]
  by_cases ht : t = s
  · subst ht
    cases h : playersAt r t <;> simp [h]
  · simp [ht]

lemma isActive_addChips (r : Room) (s d t : Int) :
    isActive (addChips r s d) t = isActive r t := by
  unfold isActive
  rw [playersAt_addChips]
  split_ifs with h
  · cases playersAt r t <;> rfl
  · rfl

lemma isSome_addChips (r : Room) (s d t : Int) :
    (playersAt (addChips r s d) t).isSome = (playersAt r t).isSome := by
  rw [playersAt_addChips]
  split_ifs with h
  · cases playersAt r t <;> rfl
  · rfl

lemma isActive_isSome (r : Room) (s : Int) (h : isActive r s = true) :
    (playersAt r s).isSome := by
  unfold isActive at h
  cases hq : playersAt r s with
  | none => rw [hq] at h; simp at h
  | some p => simp [hq]

lemma total_eq_sum_chips (r : Room) :
    total r = chipsAt r 0 + chipsAt r 1 + chipsAt r 2 + chipsAt r 3 + r.centerPot :=
  rfl

lemma total_addChips (r : Room) (s d : Int) (h : (playersAt r s).isSome) :
    total (addChips r s d) = total r + d := by
  obtain ⟨p, hp⟩ := Option.isSome_iff_exists.mp h
  have hs := playersAt_some_cases r s p hp
  rw [total_eq_sum_chips, total_eq_sum_chips, centerPot_addChips]
  rw [chipsAt_addChips, chipsAt_addChips, chipsAt_addChips, chipsAt_addChips]
  rcases hs with rfl | rfl | rfl | rfl <;>
    simp only [h, eq_self_iff_true, and_true] <;>
    (try split_ifs) <;>
    omega

lemma total_transfer (r : Room) (a b : Int)
    (ha : (playersAt r a).isSome) (hb : (playersAt r b).isSome) :
    total (transfer r a b) = total r := by
  unfold transfer
  rw [total_addChips _ _ _ (by rw [isSome_addChips]; exact hb),
      total_addChips _ _ _ ha]
  ring

lemma isActive_transfer (r : Room) (a b t : Int) :
    isActive (transfer r a b) t = isActive r t := by
  unfold transfer
  rw [isActive_addChips, isActive_addChips]

lemma isSome_transfer (r : Room) (a b t : Int) :
    (playersAt (transfer r a b) t).isSome = (playersAt r t).isSome := by
  unfold transfer
  rw [isSome_addChips, isSome_addChips]

lemma chipsAt_setPot (r : Room) (c t : Int) :
    chipsAt { r with centerPot := c } t = chipsAt r t := rfl

lemma total_setPot (r : Room) (c : Int) :
    total { r with centerPot := c } = total r - r.centerPot + c := by
  rw [total_eq_sum_chips, total_eq_sum_chips]
  simp [chipsAt_setPot]

lemma isActive_setPot (r : Room) (c t : Int) :
    isActive { r with centerPot := c } t = isActive r t := rfl

lemma isSome_setPot (r : Room) (c t : Int) :
    (playersAt { r with centerPot := c } t).isSome = (playersAt r t).isSome := rfl

lemma total_setCurrent (r : Room) (c : Int) :
    total { r with currentPlayer := c } = total r := rfl

lemma total_setStarted (r : Room) (b : Bool) :
    total { r with gameStarted := b } = total r := rfl

lemma isActive_setStarted (r : Room) (b : Bool) (t : Int) :
    isActive { r with gameStarted := b } t = isActive r t := rfl

lemma isSome_setStarted (r : Room) (b : Bool) (t : Int) :
    (playersAt { r with gameStarted := b } t).isSome = (playersAt r t).isSome := rfl

lemma chipsAt_setPlayer_samechips (r : Room) (s : Int) (p q : Player)
    (hp : playersAt r s = some p) (hq : q.chips = p.chips) (t : Int) :
    chipsAt (setPlayer r s (some q)) t = chipsAt r t := by
  by_cases ht : t = s
  · subst ht
    unfold chipsAt
    rw [playersAt_setPlayer_self r t _ (playersAt_some_cases r t p hp), hp]
    exact hq
  · unfold chipsAt
    rw [playersAt_setPlayer_ne r s _ t ht]

lemma total_setPlayer_samechips (r : Room) (s : Int) (p q : Player)
    (hp : playersAt r s = some p) (hq : q.chips = p.chips) :
    total (setPlayer r s (some q)) = total r := by
  rw [total_eq_sum_chips, total_eq_sum_chips, centerPot_setPlayer]
  rw [chipsAt_setPlayer_samechips r s p q hp hq, chipsAt_setPlayer_samechips r s p q hp hq,
      chipsAt_setPlayer_samechips r s p q hp hq, chipsAt_setPlayer_samechips r s p q hp hq]

/-! ## Shape of the `getNextSeat` scans at the concrete arguments the
handlers use (Lean evaluates the `tmod` probes definitionally) -/

lemma getNextSeat_at0 (r : Room) : getNextSeat r 0 =
    (if isActive r 1 then 1 else if isActive r 2 then 2
     else if isActive r 3 then 3 else if isActive r 0 then 0 else 0) := rfl

lemma getNextSeat_at1 (r : Room) : getNextSeat r 1 =
    (if isActive r 2 then 2 else if isActive r 3 then 3
     else if isActive r 0 then 0 else if isActive r 1 then 1 else 1) := rfl

lemma getNextSeat_at2 (r : Room) : getNextSeat r 2 =
    (if isActive r 3 then 3 else if isActive r 0 then 0
     else if isActive r 1 then 1 else if isActive r 2 then 2 else 2) := rfl

lemma getNextSeat_at3 (r : Room) : getNextSeat r 3 =
    (if isActive r 0 then 0 else if isActive r 1 then 1
     else if isActive r 2 then 2 else if isActive r 3 then 3 else 3) := rfl

lemma isActive_neg1 (r : Room) : isActive r (-1) = false := rfl

lemma getNextSeat_atm2 (r : Room) : getNextSeat r (-2) =
    (if isActive r (-1) then -1 else if isActive r 0 then 0
     else if isActive r 1 then 1 else if isActive r 2 then 2 else -2) := rfl

lemma getNextSeat_atm1 (r : Room) : getNextSeat r (-1) =
    (if isActive r 0 then 0 else if isActive r 1 then 1
     else if isActive r 2 then 2 else if isActive r 3 then 3 else -1) := rfl

/-- When the seat `s` itself is active and `0 ≤ s < 4`, the first
revision's scan from `s` can never hit its fallback, so the result seat
is always active (the probes include `s` itself at `i = 4`). -/
lemma isActive_getNextSeat_self (r : Room) (s : Int)
    (h0 : 0 ≤ s) (h4 : s < 4) (ha : isActive r s = true) :
    isActive r (getNextSeat r s) = true := by
  interval_cases s <;>
    [rw [getNextSeat_at0]; rw [getNextSeat_at1]; rw [getNextSeat_at2];
     rw [getNextSeat_at3]] <;>
    split_ifs <;> simp_all

/-- Same statement for the `Right` target scan `getNextSeat(room, s-2)`:
for `0 ≤ s < 4` the probes include `s` itself (at `i = 2`), so with an
active roller the result is again always an active seat. -/
lemma isActive_getNextSeat_sub2 (r : Room) (s : Int)
    (h0 : 0 ≤ s) (h4 : s < 4) (ha : isActive r s = true) :
    isActive r (getNextSeat r (s - 2)) = true := by
  interval_cases s
  · show isActive r (getNextSeat r (-2)) = true
    rw [getNextSeat_atm2, isActive_neg1]
    split_ifs <;> simp_all
  · show isActive r (getNextSeat r (-1)) = true
    rw [getNextSeat_atm1]
    split_ifs <;> simp_all
  · show isActive r (getNextSeat r 0) = true
    rw [getNextSeat_at0]
    split_ifs <;> simp_all
  · show isActive r (getNextSeat r 1) = true
    rw [getNextSeat_at1]
    split_ifs <;> simp_all

/-! ## Conservation of `total` through the first revision's operations -/

lemma chipsAt_of_some (r : Room) (s : Int) (p : Player)
    (hp : playersAt r s = some p) : chipsAt r s = p.chips := by
  unfold chipsAt
  rw [hp]

lemma chipsAt_setPlayer_some (r : Room) (s : Int) (q : Player) (t : Int)
    (hv : s = 0 ∨ s = 1 ∨ s = 2 ∨ s = 3) :
    chipsAt (setPlayer r s (some q)) t = if t = s then q.chips else chipsAt r t := by
  by_cases ht : t = s
  · subst ht
    unfold chipsAt
    rw [playersAt_setPlayer_self r t _ hv]
    simp
  · unfold chipsAt
    rw [playersAt_setPlayer_ne r s _ t ht, if_neg ht]

lemma total_setPlayer_chips (r : Room) (s : Int) (p q : Player)
    (hp : playersAt r s = some p) :
    total (setPlayer r s (some q)) = total r - p.chips + q.chips := by
  have hv := playersAt_some_cases r s p hp
  have hc := chipsAt_of_some r s p hp
  rw [total_eq_sum_chips, total_eq_sum_chips, centerPot_setPlayer]
  rw [chipsAt_setPlayer_some r s q 0 hv, chipsAt_setPlayer_some r s q 1 hv,
      chipsAt_setPlayer_some r s q 2 hv, chipsAt_setPlayer_some r s q 3 hv]
  rcases hv with rfl | rfl | rfl | rfl <;> (try split_ifs) <;> omega

lemma dangerUpdate_chips (p : Player) : (dangerUpdate p).chips = p.chips := by
  unfold dangerUpdate
  split_ifs <;> rfl

lemma total_finalizeTurn (r : Room) (seat : Int) :
    total (finalizeTurn r seat).1 = total r := by
  unfold finalizeTurn
  cases hp : playersAt r seat with
  | none => rfl
  | some player =>
    have h1 := total_setPlayer_samechips r seat player (dangerUpdate player) hp
      (dangerUpdate_chips player)
    dsimp only
    split_ifs
    · exact h1
    · exact h1

lemma applyOutcome1_props (r : Room) (seat : Int) (o : String)
    (h0 : 0 ≤ seat) (h4 : seat < 4) (ha : isActive r seat = true) :
    total (applyOutcome1 r seat o) = total r ∧
    (∀ t, isActive (applyOutcome1 r seat o) t = isActive r t) := by
  unfold applyOutcome1
  cases hp : playersAt r seat with
  | none =>
    unfold isActive at ha
    rw [hp] at ha
    simp at ha
  | some player =>
    dsimp only
    split_ifs with h1 h2 h3
    · exact ⟨total_transfer _ _ _ (isActive_isSome _ _ ha)
        (isActive_isSome _ _ (isActive_getNextSeat_self r seat h0 h4 ha)),
        fun t => isActive_transfer ..⟩
    · exact ⟨total_transfer _ _ _ (isActive_isSome _ _ ha)
        (isActive_isSome _ _ (isActive_getNextSeat_sub2 r seat h0 h4 ha)),
        fun t => isActive_transfer ..⟩
    · refine ⟨?_, fun t => by rw [isActive_setPot, isActive_addChips]⟩
      rw [total_setPot, total_addChips _ _ _ (isActive_isSome _ _ ha),
          centerPot_addChips]
      ring
    · exact ⟨rfl, fun t => rfl⟩

lemma foldl_applyOutcome1_props (outcomes : List String) (r : Room) (seat : Int)
    (h0 : 0 ≤ seat) (h4 : seat < 4) (ha : isActive r seat = true) :
    total (outcomes.foldl (fun r o => applyOutcome1 r seat o) r) = total r ∧
    (∀ t, isActive (outcomes.foldl (fun r o => applyOutcome1 r seat o) r) t
      = isActive r t) := by
  induction outcomes generalizing r with
  | nil => exact ⟨rfl, fun t => rfl⟩
  | cons o rest ih =>
    have hstep := applyOutcome1_props r seat o h0 h4 ha
    have hrec := ih (applyOutcome1 r seat o) (by rw [hstep.2 seat]; exact ha)
    exact ⟨by rw [List.foldl_cons, hrec.1, hstep.1],
      fun t => by rw [List.foldl_cons, hrec.2 t, hstep.2 t]⟩

lemma total_applyOutcomes (r : Room) (seat : Int) (outcomes : List String)
    (h0 : 0 ≤ seat) (h4 : seat < 4) (ha : isActive r seat = true) :
    total (applyOutcomes r seat outcomes).1 = total r := by
  unfold applyOutcomes
  rw [total_finalizeTurn]
  exact (foldl_applyOutcome1_props outcomes r seat h0 h4 ha).1

lemma applyWildAction1_props (r : Room) (seat : Int) (a : WildAction)
    (hs : (playersAt r seat).isSome = true) :
    total (applyWildAction1 r seat a) = total r ∧
    (∀ t, (playersAt (applyWildAction1 r seat a) t).isSome
      = (playersAt r t).isSome) := by
  unfold applyWildAction1
  split_ifs with h1
  · cases ht : playersAt r a.fromSeat with
    | none => exact ⟨rfl, fun t => rfl⟩
    | some target =>
      dsimp only
      split_ifs with h2
      · exact ⟨total_transfer _ _ _ (by rw [ht]; rfl) hs,
          fun t => isSome_transfer ..⟩
      · exact ⟨rfl, fun t => rfl⟩
  · exact ⟨rfl, fun t => rfl⟩

lemma foldl_applyWildAction1_props (actions : List WildAction) (r : Room)
    (seat : Int) (hs : (playersAt r seat).isSome = true) :
    total (actions.foldl (fun r a => applyWildAction1 r seat a) r) = total r ∧
    (∀ t, (playersAt (actions.foldl (fun r a => applyWildAction1 r seat a) r) t).isSome
      = (playersAt r t).isSome) := by
  induction actions generalizing r with
  | nil => exact ⟨rfl, fun t => rfl⟩
  | cons a rest ih =>
    have hstep := applyWildAction1_props r seat a hs
    have hrec := ih (applyWildAction1 r seat a) (by rw [hstep.2 seat]; exact hs)
    exact ⟨by rw [List.foldl_cons, hrec.1, hstep.1],
      fun t => by rw [List.foldl_cons, hrec.2 t, hstep.2 t]⟩

lemma total_applyWildActions (r : Room) (seat : Int) (actions : List WildAction)
    (hs : (playersAt r seat).isSome = true) :
    total (applyWildActions r seat actions).1 = total r := by
  unfold applyWildActions
  rw [total_finalizeTurn]
  exact (foldl_applyWildAction1_props actions r seat hs).1

lemma steal3Step_props (seat : Int) (acc : Room × Int) (i : Int)
    (hs : (playersAt acc.1 seat).isSome = true) :
    total (steal3Step seat acc i).1 = total acc.1 ∧
    (∀ t, (playersAt (steal3Step seat acc i).1 t).isSome
      = (playersAt acc.1 t).isSome) := by
  obtain ⟨room, steals⟩ := acc
  unfold steal3Step
  dsimp only at hs ⊢
  split_ifs with h1
  · exact ⟨rfl, fun t => rfl⟩
  · cases ht : playersAt room i with
    | none => exact ⟨rfl, fun t => rfl⟩
    | some target =>
      dsimp only
      split_ifs with h2
      · refine ⟨?_, fun t => by rw [isSome_addChips, isSome_addChips]⟩
        rw [total_addChips _ _ _ (by rw [isSome_addChips]; exact hs),
            total_addChips _ _ _ (by rw [ht]; rfl)]
        ring
      · exact ⟨rfl, fun t => rfl⟩

lemma total_applyTripleWild (r : Room) (seat : Int) (choice : String) :
    total (applyTripleWild r seat choice).1 = total r := by
  unfold applyTripleWild
  cases hp : playersAt r seat with
  | none => rfl
  | some player =>
    have hs : (playersAt r seat).isSome = true := by rw [hp]; rfl
    dsimp only
    split_ifs with hc hc2 hc2
    · rw [hc] at hc2
      simp at hc2
    · rw [total_finalizeTurn]
      have s0 := steal3Step_props seat (r, 3) 0 hs
      have s1 := steal3Step_props seat (steal3Step seat (r, 3) 0) 1
        (by rw [s0.2 seat]; exact hs)
      have s2 := steal3Step_props seat
        (steal3Step seat (steal3Step seat (r, 3) 0) 1) 2
        (by rw [s1.2 seat, s0.2 seat]; exact hs)
      have s3 := steal3Step_props seat
        (steal3Step seat (steal3Step seat (steal3Step seat (r, 3) 0) 1) 2) 3
        (by rw [s2.2 seat, s1.2 seat, s0.2 seat]; exact hs)
      show total (steal3Step seat
        (steal3Step seat (steal3Step seat (steal3Step seat (r, 3) 0) 1) 2) 3).1
        = total r
      rw [s3.1, s2.1, s1.1, s0.1]
    · rw [total_finalizeTurn]
      have := total_setPot (setPlayer r seat
        (some { player with chips := player.chips + r.centerPot })) 0
      rw [this, total_setPlayer_chips r seat player _ hp, centerPot_setPlayer]
      ring
    · rw [total_finalizeTurn]

lemma any_isSome {o : Option Player} {f : Player → Bool}
    (h : o.any f = true) : o.isSome = true := by
  cases o
  · simp [Option.any] at h
  · rfl

lemma findSeatBySocket_some (r : Room) (sid : String) (s : Int)
    (h : findSeatBySocket r sid = some s) :
    (s = 0 ∨ s = 1 ∨ s = 2 ∨ s = 3) ∧ (playersAt r s).isSome = true := by
  unfold findSeatBySocket at h
  split_ifs at h with h0 h1 h2 h3 <;> injection h with h <;> subst h
  · exact ⟨by norm_num, any_isSome h0⟩
  · exact ⟨by norm_num, any_isSome h1⟩
  · exact ⟨by norm_num, any_isSome h2⟩
  · exact ⟨by norm_num, any_isSome h3⟩

lemma total_rollDice (room : Room) (sid : String) (drawn : List String) :
    total (rollDice room sid drawn).1 = total room := by
  unfold rollDice
  cases hf : findSeatBySocket room sid with
  | none => rfl
  | some seat =>
    obtain ⟨hb, hsome⟩ := findSeatBySocket_some room sid seat hf
    dsimp only
    split_ifs with h1
    · rfl
    · cases hp : playersAt room seat with
      | none => simp [hp] at hsome
      | some player =>
        dsimp only
        split_ifs with h2 h3 h4 h5
        · rfl
        · exact total_setPlayer_samechips room seat player
            { player with danger := true } hp rfl
        · exact total_setStarted room true
        · exact total_setStarted room true
        · rw [total_applyOutcomes]
          · exact total_setStarted room true
          · rcases hb with rfl | rfl | rfl | rfl <;> norm_num
          · rcases hb with rfl | rfl | rfl | rfl <;> norm_num
          · rw [isActive_setStarted]
            unfold isActive
            rw [hp]
            simp [h2]

lemma total_resolveWilds (room : Room) (sid : String) (actions : List WildAction) :
    total (resolveWilds room sid actions).1 = total room := by
  unfold resolveWilds
  cases hf : findSeatBySocket room sid with
  | none => rfl
  | some seat =>
    exact total_applyWildActions room seat actions
      (findSeatBySocket_some room sid seat hf).2

lemma total_tripleWildChoice (room : Room) (sid : String) (choice : String) :
    total (tripleWildChoice room sid choice).1 = total room := by
  unfold tripleWildChoice
  cases hf : findSeatBySocket room sid with
  | none => rfl
  | some seat => exact total_applyTripleWild room seat choice

/-- C2: for every room and every step of a `rollDice` / `resolveWilds` /
`tripleWildChoice` resolution cycle, the quantity (sum of chips over all
seated players) + centerPot is unchanged.  In the first revision this
holds for *every* step without exception, because its `finalizeTurn`
never transfers the pot to the winner — the claim's "not including a
gameOver payout" proviso is vacuous there. -/
theorem C2_chip_conservation (room : Room) (sid : String) (drawn : List String)
    (actions : List WildAction) (choice : String) :
    total (rollDice room sid drawn).1 = total room ∧
    total (resolveWilds room sid actions).1 = total room ∧
    total (tripleWildChoice room sid choice).1 = total room :=
  ⟨total_rollDice room sid drawn, total_resolveWilds room sid actions,
   total_tripleWildChoice room sid choice⟩

/-- C1 (code bug evidence): in the first revision, a `resolveWilds` call
from seat 1 — out of turn, with no roll ever made, hence nothing that
could act as a pending roll — is *not* rejected: the client-supplied
steal is applied (seat 0 loses a chip to seat 1) and the turn advances.
No `pendingRoll` is stored anywhere in the program, so resolution is
driven entirely by client data. -/
theorem C1_resolveWilds_trusts_client :
    chipsAt (resolveWilds roomFull "s1" [{ type := "steal", fromSeat := 0 }]).1 0 = 2 ∧
    chipsAt (resolveWilds roomFull "s1" [{ type := "steal", fromSeat := 0 }]).1 1 = 4 ∧
    (resolveWilds roomFull "s1" [{ type := "steal", fromSeat := 0 }]).1.currentPlayer = 2 ∧
    (resolveWilds roomFull "s1" [{ type := "steal", fromSeat := 0 }]).1 ≠ roomFull := by
  decide

/-- The roll-rejection conditions that the first revision actually
checks: unknown caller (not seated), caller's seat is not
`currentPlayer`, or the caller is eliminated. -/
def rollRejected (room : Room) (sid : String) : Prop :=
  findSeatBySocket room sid = none ∨
  ∃ seat, findSeatBySocket room sid = some seat ∧
    (seat ≠ room.currentPlayer ∨
     ∃ p, playersAt room seat = some p ∧ p.eliminated = true)

/-- C5 (amended): `rollDice` is silently rejected, with no mutation and
no emission, exactly under the checks the code performs — caller not
seated, caller's seat not `currentPlayer`, or caller eliminated.  (There
is no phase check and no pending-roll check; see the counterexample.) -/
theorem C5_rollDice_checked_rejections (room : Room) (sid : String)
    (drawn : List String) (h : rollRejected room sid) :
    rollDice room sid drawn = (room, []) := by
  unfold rollDice
  rcases h with h | ⟨seat, hf, hcase⟩
  · rw [h]
  · rw [hf]
    dsimp only
    rcases hcase with hne | ⟨p, hp, helim⟩
    · rw [if_pos hne]
    · split_ifs with h1
      · rfl
      · rw [hp]
        dsimp only
        rw [if_pos helim]

theorem C5_rollDice_checked_rejections_witness :
    rollDice roomFull "s1" ["Hub", "Hub", "Hub"] = (roomFull, []) :=
  C5_rollDice_checked_rejections roomFull "s1" ["Hub", "Hub", "Hub"]
    (Or.inr ⟨1, by decide, Or.inl (by decide)⟩)

/-- A room in the Waiting phase (`gameStarted = false`): two seated
players, seat 0 to move with 0 chips. -/
def roomWaiting : Room :=
  { p0 := some (mkPlayer "s0" "a" 0), p1 := some (mkPlayer "s1" "b" 3),
    p2 := none, p3 := none, centerPot := 0, currentPlayer := 0,
    gameStarted := false }

/-- C5 (counterexample): the claim also demands rejection when the phase
is not Playing and while a roll is pending; the code checks neither.
Here `gameStarted = false` (phase Waiting), yet `rollDice` mutates the
room: the current player's `danger` flag is set and the turn advances. -/
theorem C5_no_phase_check :
    roomWaiting.gameStarted = false ∧
    (rollDice roomWaiting "s0" []).1 ≠ roomWaiting ∧
    (playersAt (rollDice roomWaiting "s0" []).1 0).map Player.danger = some true ∧
    (rollDice roomWaiting "s0" []).1.currentPlayer = 1 := by
  decide

/-- C6 (code bug evidence): with all four seats occupied, a `Right`
outcome rolled by seat 0 resolves its target through
`getNextSeat(room, 0 - 2)`; JavaScript's `%` makes the scan probe seat
`-1` (undefined) and then seat `0` — the roller itself.  The chip is
"transferred" from seat 0 to seat 0: every seat still holds 3 chips, and
seat 3 (the counter-clockwise neighbour the claim requires) gains
nothing.  For seats 1, 2, 3 the same scan lands on the correct
counter-clockwise neighbour. -/
theorem C6_right_from_seat0_pays_self :
    getNextSeat roomFull (0 - 2) = 0 ∧
    chipsAt (applyOutcomes roomFull 0 ["Right"]).1 3 = 3 ∧
    chipsAt (applyOutcomes roomFull 0 ["Right"]).1 0 = 3 ∧
    getNextSeat roomFull (1 - 2) = 0 ∧
    getNextSeat roomFull (2 - 2) = 1 ∧
    getNextSeat roomFull (3 - 2) = 2 := by
  decide

/-- C4 (amended): the first revision's `finalizeTurn` replaces the
rolling seat's player by `dangerUpdate player`: with 0 chips and
`danger` already set the player is eliminated — but `danger` is *not*
cleared; with 0 chips and no `danger` the flag is set without
eliminating (a first zero-chip turn never eliminates); with chips
remaining `danger` is cleared. -/
theorem C4_danger_elimination (room : Room) (seat : Int) (p : Player)
    (hp : playersAt room seat = some p) :
    playersAt (finalizeTurn room seat).1 seat = some (dangerUpdate p) ∧
    (p.chips = 0 → p.danger = true →
      (dangerUpdate p).eliminated = true ∧ (dangerUpdate p).danger = true) ∧
    (p.chips = 0 → p.danger = false →
      (dangerUpdate p).danger = true ∧ (dangerUpdate p).eliminated = p.eliminated) ∧
    (0 < p.chips →
      (dangerUpdate p).danger = false ∧ (dangerUpdate p).eliminated = p.eliminated) := by
  refine ⟨?_, ?_, ?_, ?_⟩
  · unfold finalizeTurn
    rw [hp]
    dsimp only
    have hself := playersAt_setPlayer_self room seat
      (some (dangerUpdate p)) (playersAt_some_cases room seat p hp)
    split_ifs
    · exact hself
    · exact hself
  · intro h0 hd
    unfold dangerUpdate
    rw [h0, hd]
    simp
  · intro h0 hd
    unfold dangerUpdate
    rw [h0, hd]
    simp
  · intro hpos
    unfold dangerUpdate
    rw [if_neg (by omega)]
    simp

/-- The player of the C4/C10 danger scenarios: seat 0, zero chips,
`danger` already set from the previous zero-chip turn. -/
def pDanger : Player :=
  { mkPlayer "s0" "a" 0 with danger := true }

def roomDanger : Room :=
  { p0 := some pDanger, p1 := some (mkPlayer "s1" "b" 3),
    p2 := some (mkPlayer "s2" "c" 3), p3 := some (mkPlayer "s3" "d" 3),
    centerPot := 0, currentPlayer := 0, gameStarted := true }

theorem C4_danger_elimination_witness :
    playersAt (finalizeTurn roomDanger 0).1 0 = some (dangerUpdate pDanger) ∧
    (pDanger.chips = 0 → pDanger.danger = true →
      (dangerUpdate pDanger).eliminated = true ∧ (dangerUpdate pDanger).danger = true) ∧
    (pDanger.chips = 0 → pDanger.danger = false →
      (dangerUpdate pDanger).danger = true ∧
      (dangerUpdate pDanger).eliminated = pDanger.eliminated) ∧
    (0 < pDanger.chips →
      (dangerUpdate pDanger).danger = false ∧
      (dangerUpdate pDanger).eliminated = pDanger.eliminated) :=
  C4_danger_elimination roomDanger 0 pDanger (by decide)

/-- C4 (counterexample to the claim as stated): eliminating a player at
0 chips with `danger` already true leaves `danger` set — the claim's
"danger is cleared" clause is false on the code. -/
theorem C4_danger_not_cleared :
    (playersAt (finalizeTurn roomDanger 0).1 0).map Player.eliminated = some true ∧
    (playersAt (finalizeTurn roomDanger 0).1 0).map Player.danger = some true := by
  decide

/-- The roller of the C7 scenario: 2 chips, so the claimed Dot gain for
a roll with two Dot faces would be `min(2, 3 - 2) = 1`. -/
def roomChips2 : Room :=
  { roomFull with p0 := some (mkPlayer "s0" "a" 2) }

/-- C7 (code bug evidence): the second revision's dice faces are spelled
`"Dottt"`, but the dot gain counts faces equal to `"Dot"`, so the count
is always 0 and no gain is ever applied.  Rolling two `"Dottt"` faces
and a `"Wild"` with 2 chips leaves the room unchanged and emits no
`chipsGained` — the claimed immediate gain of `min(2, 3-2) = 1` chip
never happens (wilds present or not). -/
theorem C7_dot_gain_never_applied :
    ("Dottt" ∈ diceFacesRev2 ∧ "Dot" ∉ diceFacesRev2) ∧
    rollDiceRev2 roomChips2 ["Dottt", "Dottt", "Wild"]
      = (roomChips2, [Emit.rollResult 0 ["Dottt", "Dottt", "Wild"],
                      Emit.requestWildChoice 0, Emit.stateUpdate]) := by
  decide

/-! ## C8: the triple-wild bulk steal -/

lemma chipsAt_finalizeTurn (r : Room) (s t : Int) :
    chipsAt (finalizeTurn r s).1 t = chipsAt r t := by
  unfold finalizeTurn
  cases hp : playersAt r s with
  | none => rfl
  | some p =>
    dsimp only
    have hch := chipsAt_setPlayer_samechips r s p (dangerUpdate p) hp
      (dangerUpdate_chips p) t
    split_ifs
    · exact hch
    · exact hch

lemma centerPot_finalizeTurn (r : Room) (s : Int) :
    (finalizeTurn r s).1.centerPot = r.centerPot := by
  unfold finalizeTurn
  cases hp : playersAt r s with
  | none => rfl
  | some p =>
    dsimp only
    split_ifs
    · exact centerPot_setPlayer ..
    · exact centerPot_setPlayer ..

lemma steal3Step_self (seat : Int) (acc : Room × Int) :
    steal3Step seat acc seat = acc := by
  unfold steal3Step
  simp

/-- Full characterization of one (non-self) `steal3` iteration: it takes
`min(steals, max(chips, 0))` chips from seat `i` and credits the roller. -/
lemma steal3Step_chips (seat : Int) (acc : Room × Int) (i : Int)
    (hi : i ≠ seat) (hseat : (playersAt acc.1 seat).isSome = true)
    (hs : 0 ≤ acc.2) :
    (steal3Step seat acc i).2 = acc.2 - min acc.2 (max (chipsAt acc.1 i) 0) ∧
    chipsAt (steal3Step seat acc i).1 seat
      = chipsAt acc.1 seat + min acc.2 (max (chipsAt acc.1 i) 0) ∧
    (∀ t, t ≠ i → t ≠ seat →
      chipsAt (steal3Step seat acc i).1 t = chipsAt acc.1 t) ∧
    (∀ t, (playersAt (steal3Step seat acc i).1 t).isSome
      = (playersAt acc.1 t).isSome) ∧
    (steal3Step seat acc i).1.centerPot = acc.1.centerPot := by
  unfold steal3Step
  dsimp only
  rw [if_neg hi]
  cases ht : playersAt acc.1 i with
  | none =>
    have hz : chipsAt acc.1 i = 0 := by unfold chipsAt; rw [ht]
    dsimp only
    refine ⟨by rw [hz]; omega, by rw [hz]; omega,
      fun t _ _ => rfl, fun t => rfl, rfl⟩
  | some target =>
    have hc : chipsAt acc.1 i = target.chips := chipsAt_of_some acc.1 i target ht
    dsimp only
    split_ifs with hcond
    · simp only [Bool.and_eq_true, decide_eq_true_eq] at hcond
      refine ⟨by rw [hc]; omega, ?_, ?_, ?_, ?_⟩
      · rw [chipsAt_addChips,
            if_pos ⟨rfl, by rw [isSome_addChips]; exact hseat⟩,
            chipsAt_addChips, if_neg (fun hcon => hi hcon.1.symm), hc]
        omega
      · intro t hti hts
        rw [chipsAt_addChips, if_neg (fun hcon => hts hcon.1),
            chipsAt_addChips, if_neg (fun hcon => hti hcon.1)]
      · intro t
        rw [isSome_addChips, isSome_addChips]
      · rw [centerPot_addChips, centerPot_addChips]
    · simp only [Bool.and_eq_true, decide_eq_true_eq, not_and_or] at hcond
      have hmin : min acc.2 (max (chipsAt acc.1 i) 0) = 0 := by rw [hc]; omega
      exact ⟨by omega, by omega, fun t _ _ => rfl, fun t => rfl, rfl⟩

/-- Total chips available to a bulk steal: over the other three seats,
an occupied seat offers `max(chips, 0)` (an empty one offers nothing). -/
def availOthers (r : Room) (seat : Int) : Int :=
  ((([0, 1, 2, 3] : List Int).filter (fun i => i ≠ seat)).map
    (fun i => max (chipsAt r i) 0)).sum

lemma steal3_chain (room : Room) (seat j1 j2 j3 : Int)
    (hseat : (playersAt room seat).isSome = true)
    (hj1 : j1 ≠ seat) (hj2 : j2 ≠ seat) (hj3 : j3 ≠ seat)
    (h21 : j2 ≠ j1) (h31 : j3 ≠ j1) (h32 : j3 ≠ j2) :
    chipsAt (steal3Step seat (steal3Step seat
        (steal3Step seat (room, 3) j1) j2) j3).1 seat
      = chipsAt room seat
        + min 3 (max (chipsAt room j1) 0 + max (chipsAt room j2) 0
                 + max (chipsAt room j3) 0) ∧
    (steal3Step seat (steal3Step seat
        (steal3Step seat (room, 3) j1) j2) j3).1.centerPot
      = room.centerPot := by
  have s1 := steal3Step_chips seat (room, 3) j1 hj1 hseat (by norm_num)
  dsimp only at s1
  obtain ⟨s1s, s1g, s1o, s1p, s1c⟩ := s1
  have s2 := steal3Step_chips seat (steal3Step seat (room, 3) j1) j2 hj2
    (by rw [s1p]; exact hseat) (by rw [s1s]; omega)
  obtain ⟨s2s, s2g, s2o, s2p, s2c⟩ := s2
  have s3 := steal3Step_chips seat
    (steal3Step seat (steal3Step seat (room, 3) j1) j2) j3 hj3
    (by rw [s2p, s1p]; exact hseat) (by rw [s2s, s1s]; omega)
  obtain ⟨s3s, s3g, s3o, s3p, s3c⟩ := s3
  refine ⟨?_, by rw [s3c, s2c, s1c]⟩
  rw [s3g, s2g, s1g, s2s, s1s, s2o j3 h32 hj3, s1o j3 h31 hj3, s1o j2 h21 hj2]
  omega

lemma steal3_fold_gain (room : Room) (seat : Int)
    (hseat : (playersAt room seat).isSome = true)
    (hv : seat = 0 ∨ seat = 1 ∨ seat = 2 ∨ seat = 3) :
    chipsAt ((([0, 1, 2, 3] : List Int).foldl (steal3Step seat) (room, 3)).1) seat
      = chipsAt room seat + min 3 (availOthers room seat) ∧
    ((([0, 1, 2, 3] : List Int).foldl (steal3Step seat) (room, 3)).1).centerPot
      = room.centerPot := by
  rcases hv with rfl | rfl | rfl | rfl
  · have e : (([0, 1, 2, 3] : List Int).foldl (steal3Step 0) (room, 3))
        = steal3Step 0 (steal3Step 0 (steal3Step 0 (room, 3) 1) 2) 3 := by
      show steal3Step 0 (steal3Step 0 (steal3Step 0
        (steal3Step 0 (room, 3) 0) 1) 2) 3 = _
      rw [steal3Step_self]
    have hc := steal3_chain room 0 1 2 3 hseat (by norm_num) (by norm_num)
      (by norm_num) (by norm_num) (by norm_num) (by norm_num)
    have hav : availOthers room 0
        = max (chipsAt room 1) 0 + (max (chipsAt room 2) 0
          + (max (chipsAt room 3) 0 + 0)) := rfl
    rw [e]
    exact ⟨by rw [hc.1]; omega, hc.2⟩
  · have e : (([0, 1, 2, 3] : List Int).foldl (steal3Step 1) (room, 3))
        = steal3Step 1 (steal3Step 1 (steal3Step 1 (room, 3) 0) 2) 3 := by
      show steal3Step 1 (steal3Step 1 (steal3Step 1
        (steal3Step 1 (room, 3) 0) 1) 2) 3 = _
      rw [steal3Step_self]
    have hc := steal3_chain room 1 0 2 3 hseat (by norm_num) (by norm_num)
      (by norm_num) (by norm_num) (by norm_num) (by norm_num)
    have hav : availOthers room 1
        = max (chipsAt room 0) 0 + (max (chipsAt room 2) 0
          + (max (chipsAt room 3) 0 + 0)) := rfl
    rw [e]
    exact ⟨by rw [hc.1]; omega, hc.2⟩
  · have e : (([0, 1, 2, 3] : List Int).foldl (steal3Step 2) (room, 3))
        = steal3Step 2 (steal3Step 2 (steal3Step 2 (room, 3) 0) 1) 3 := by
      show steal3Step 2 (steal3Step 2 (steal3Step 2
        (steal3Step 2 (room, 3) 0) 1) 2) 3 = _
      rw [steal3Step_self]
    have hc := steal3_chain room 2 0 1 3 hseat (by norm_num) (by norm_num)
      (by norm_num) (by norm_num) (by norm_num) (by norm_num)
    have hav : availOthers room 2
        = max (chipsAt room 0) 0 + (max (chipsAt room 1) 0
          + (max (chipsAt room 3) 0 + 0)) := rfl
    rw [e]
    exact ⟨by rw [hc.1]; omega, hc.2⟩
  · have e : (([0, 1, 2, 3] : List Int).foldl (steal3Step 3) (room, 3))
        = steal3Step 3 (steal3Step 3 (steal3Step 3 (room, 3) 0) 1) 2 := by
      show steal3Step 3 (steal3Step 3 (steal3Step 3
        (steal3Step 3 (room, 3) 0) 1) 2) 3 = _
      rw [steal3Step_self]
    have hc := steal3_chain room 3 0 1 2 hseat (by norm_num) (by norm_num)
      (by norm_num) (by norm_num) (by norm_num) (by norm_num)
    have hav : availOthers room 3
        = max (chipsAt room 0) 0 + (max (chipsAt room 1) 0
          + (max (chipsAt room 2) 0 + 0)) := rfl
    rw [e]
    exact ⟨by rw [hc.1]; omega, hc.2⟩

/-- C8 (amended): the first revision's `steal3` visits seats in index
order `0..3`, skips self, and takes `min(target.chips, still-needed)`
chips at once from each occupied seat with chips — possibly all 3 from
a single seat — so the roller's gain is exactly
`min(3, total chips held by the other seats)`, and the pot is
untouched. -/
theorem C8_steal3_bulk (room : Room) (seat : Int) (p : Player)
    (hp : playersAt room seat = some p) :
    chipsAt (applyTripleWild room seat "steal3").1 seat
      = p.chips + min 3 (availOthers room seat) ∧
    (applyTripleWild room seat "steal3").1.centerPot = room.centerPot := by
  have hred : applyTripleWild room seat "steal3"
      = finalizeTurn
          ((([0, 1, 2, 3] : List Int).foldl (steal3Step seat) (room, 3))).1
          seat := by
    unfold applyTripleWild
    rw [hp]
    dsimp only
    rw [if_neg (by decide : ¬ ("steal3" = "takePot")), if_pos rfl]
  have fold := steal3_fold_gain room seat (by rw [hp]; rfl)
    (playersAt_some_cases room seat p hp)
  rw [hred]
  constructor
  · rw [chipsAt_finalizeTurn, fold.1, chipsAt_of_some room seat p hp]
  · rw [centerPot_finalizeTurn, fold.2]

theorem C8_steal3_bulk_witness :
    chipsAt (applyTripleWild roomFull 0 "steal3").1 0
      = (mkPlayer "s0" "a" 3).chips + min 3 (availOthers roomFull 0) ∧
    (applyTripleWild roomFull 0 "steal3").1.centerPot = roomFull.centerPot :=
  C8_steal3_bulk roomFull 0 (mkPlayer "s0" "a" 3) (by decide)

/-- C8 (counterexample to the claim as stated): seat 0 rolls a triple
wild in a room where everyone holds 3 chips and chooses `steal3`.  The
claim (and the spec's Scenario C) predicts 1 chip from each of seats
1, 2, 3 — final chips `[6, 2, 2, 2]`.  The code instead takes all 3
chips from seat 1 alone: final chips `[6, 0, 3, 3]`. -/
theorem C8_single_seat_loses_three :
    chipsAt (applyTripleWild roomFull 0 "steal3").1 0 = 6 ∧
    chipsAt (applyTripleWild roomFull 0 "steal3").1 1 = 0 ∧
    chipsAt (applyTripleWild roomFull 0 "steal3").1 2 = 3 ∧
    chipsAt (applyTripleWild roomFull 0 "steal3").1 3 = 3 := by
  decide

/-- C9: `getNextSeat(room, f)` for `0 ≤ f < 4` examines exactly the four
probes `f+1 .. f+4 (mod 4)`, returns the first occupied non-eliminated
one (the `find?` characterization), falls back to `f` when none
qualifies, and the returned seat is empty or eliminated only when every
seat of the room is empty or eliminated. -/
theorem C9_nextSeat_spec (room : Room) (f : Int) (h0 : 0 ≤ f) (hlt : f < 4) :
    getNextSeat room f
      = (([(f + 1).tmod 4, (f + 2).tmod 4, (f + 3).tmod 4,
           (f + 4).tmod 4].find? (fun s => isActive room s)).getD f) ∧
    (isActive room (getNextSeat room f) = true ∨
      (getNextSeat room f = f ∧ ∀ s, 0 ≤ s → s < 4 → isActive room s = false)) := by
  have hfst : getNextSeat room f
      = (([(f + 1).tmod 4, (f + 2).tmod 4, (f + 3).tmod 4,
           (f + 4).tmod 4].find? (fun s => isActive room s)).getD f) := by
    unfold getNextSeat
    by_cases h1 : isActive room ((f + 1).tmod 4) <;>
      by_cases h2 : isActive room ((f + 2).tmod 4) <;>
      by_cases h3 : isActive room ((f + 3).tmod 4) <;>
      by_cases h4 : isActive room ((f + 4).tmod 4) <;>
      simp [List.find?, h1, h2, h3, h4]
  refine ⟨hfst, ?_⟩
  cases hfind : ([(f + 1).tmod 4, (f + 2).tmod 4, (f + 3).tmod 4,
      (f + 4).tmod 4].find? (fun s => isActive room s)) with
  | none =>
    right
    have hall := List.find?_eq_none.mp hfind
    refine ⟨by rw [hfst, hfind]; rfl, ?_⟩
    intro s hs0 hs4
    have hmem : s ∈ [(f + 1).tmod 4, (f + 2).tmod 4, (f + 3).tmod 4,
        (f + 4).tmod 4] := by
      interval_cases f <;> interval_cases s <;> decide
    simpa using hall s hmem
  | some s =>
    left
    rw [hfst, hfind]
    simpa using List.find?_some hfind

theorem C9_nextSeat_spec_witness :
    getNextSeat roomFull 2
      = (([((2 : Int) + 1).tmod 4, ((2 : Int) + 2).tmod 4,
           ((2 : Int) + 3).tmod 4, ((2 : Int) + 4).tmod 4].find?
          (fun s => isActive roomFull s)).getD 2) ∧
    (isActive roomFull (getNextSeat roomFull 2) = true ∨
      (getNextSeat roomFull 2 = 2 ∧
       ∀ s, 0 ≤ s → s < 4 → isActive roomFull s = false)) :=
  C9_nextSeat_spec roomFull 2 (by norm_num) (by norm_num)

lemma chipsAt_setCurrent (r : Room) (c t : Int) :
    chipsAt { r with currentPlayer := c } t = chipsAt r t := rfl

lemma seatsWithChips_congr (r r' : Room)
    (h : ∀ t, chipsAt r' t = chipsAt r t) :
    seatsWithChips r' = seatsWithChips r := by
  unfold seatsWithChips
  apply List.filter_congr
  intro x _
  rw [h x]

/-- C10 (amended): in the first revision, any seated connection may call
`resolveWilds` at any time — no turn, phase, or pending-roll condition
exists.  With an empty `actions` array the call changes no chip count
and not the pot, yet runs the danger/elimination update on the caller's
seat; then, *unless exactly one seat holds chips*, it advances
`currentPlayer` to the next active seat after the caller — when exactly
one seat holds chips it instead emits `gameOver` and leaves
`currentPlayer` untouched. -/
theorem C10_resolveWilds_empty_pass (room : Room) (sid : String) (seat : Int)
    (p : Player) (hf : findSeatBySocket room sid = some seat)
    (hp : playersAt room seat = some p) :
    (∀ t, chipsAt (resolveWilds room sid []).1 t = chipsAt room t) ∧
    (resolveWilds room sid []).1.centerPot = room.centerPot ∧
    playersAt (resolveWilds room sid []).1 seat = some (dangerUpdate p) ∧
    (countPlayersWithChips room ≠ 1 →
      (resolveWilds room sid []).1.currentPlayer
        = getNextSeat (setPlayer room seat (some (dangerUpdate p))) seat ∧
      (resolveWilds room sid []).2 = [Emit.stateUpdate]) ∧
    (countPlayersWithChips room = 1 →
      (resolveWilds room sid []).1.currentPlayer = room.currentPlayer ∧
      (resolveWilds room sid []).2
        = [Emit.gameOver (getLastPlayerWithChips room) room.centerPot,
           Emit.stateUpdate]) := by
  have hred : resolveWilds room sid [] = finalizeTurn room seat := by
    unfold resolveWilds
    rw [hf]
    rfl
  have hv := playersAt_some_cases room seat p hp
  have hchips : ∀ t,
      chipsAt (setPlayer room seat (some (dangerUpdate p))) t = chipsAt room t :=
    fun t => chipsAt_setPlayer_samechips room seat p (dangerUpdate p) hp
      (dangerUpdate_chips p) t
  have hseats : seatsWithChips (setPlayer room seat (some (dangerUpdate p)))
      = seatsWithChips room := seatsWithChips_congr room _ hchips
  have hcount : countPlayersWithChips (setPlayer room seat (some (dangerUpdate p)))
      = countPlayersWithChips room := by
    unfold countPlayersWithChips
    rw [hseats]
  have hlast : getLastPlayerWithChips (setPlayer room seat (some (dangerUpdate p)))
      = getLastPlayerWithChips room := by
    unfold getLastPlayerWithChips
    rw [hseats]
  have hfin : finalizeTurn room seat =
      (if countPlayersWithChips (setPlayer room seat (some (dangerUpdate p))) = 1
       then (setPlayer room seat (some (dangerUpdate p)),
             [Emit.gameOver
                (getLastPlayerWithChips (setPlayer room seat (some (dangerUpdate p))))
                (setPlayer room seat (some (dangerUpdate p))).centerPot,
              Emit.stateUpdate])
       else ({ setPlayer room seat (some (dangerUpdate p)) with
               currentPlayer := getNextSeat
                 (setPlayer room seat (some (dangerUpdate p))) seat },
             [Emit.stateUpdate])) := by
    unfold finalizeTurn
    rw [hp]
  rw [hred, hfin]
  by_cases hc : countPlayersWithChips room = 1
  · rw [if_pos (by rw [hcount]; exact hc)]
    exact ⟨hchips, centerPot_setPlayer .., playersAt_setPlayer_self room seat _ hv,
      fun hne => absurd hc hne,
      fun _ => ⟨currentPlayer_setPlayer .., by rw [hlast, centerPot_setPlayer]⟩⟩
  · rw [if_neg (by rw [hcount]; exact hc)]
    exact ⟨fun t => by rw [chipsAt_setCurrent, hchips t],
      centerPot_setPlayer ..,
      playersAt_setPlayer_self room seat _ hv,
      fun _ => ⟨rfl, rfl⟩,
      fun h1 => absurd h1 hc⟩

theorem C10_resolveWilds_empty_pass_witness :
    (∀ t, chipsAt (resolveWilds roomFull "s1" []).1 t = chipsAt roomFull t) ∧
    (resolveWilds roomFull "s1" []).1.centerPot = roomFull.centerPot ∧
    playersAt (resolveWilds roomFull "s1" []).1 1
      = some (dangerUpdate (mkPlayer "s1" "b" 3)) ∧
    (countPlayersWithChips roomFull ≠ 1 →
      (resolveWilds roomFull "s1" []).1.currentPlayer
        = getNextSeat (setPlayer roomFull 1
            (some (dangerUpdate (mkPlayer "s1" "b" 3)))) 1 ∧
      (resolveWilds roomFull "s1" []).2 = [Emit.stateUpdate]) ∧
    (countPlayersWithChips roomFull = 1 →
      (resolveWilds roomFull "s1" []).1.currentPlayer = roomFull.currentPlayer ∧
      (resolveWilds roomFull "s1" []).2
        = [Emit.gameOver (getLastPlayerWithChips roomFull) roomFull.centerPot,
           Emit.stateUpdate]) :=
  C10_resolveWilds_empty_pass roomFull "s1" 1 (mkPlayer "s1" "b" 3)
    (by decide) (by decide)

/-- The room of the C10 counterexample: only seat 0 still holds chips,
seat 1 is seated with none, and `currentPlayer` is 3. -/
def roomOneChip : Room :=
  { p0 := some (mkPlayer "s0" "a" 3), p1 := some (mkPlayer "s1" "b" 0),
    p2 := none, p3 := none, centerPot := 2, currentPlayer := 3,
    gameStarted := true }

/-- C10 (counterexample to the claim as stated): when exactly one seat
holds chips, the empty `resolveWilds` call does *not* advance
`currentPlayer` to the next active seat after the caller (which would be
seat 0 here): it emits `gameOver` and leaves `currentPlayer` at 3. -/
theorem C10_no_advance_on_win :
    (resolveWilds roomOneChip "s1" []).1.currentPlayer = 3 ∧
    getNextSeat (resolveWilds roomOneChip "s1" []).1 1 = 0 ∧
    (3 : Int) ≠ 0 ∧
    (resolveWilds roomOneChip "s1" []).2
      = [Emit.gameOver (some 0) 2, Emit.stateUpdate] := by
  decide

/-! ## C3: game over in the `part_002` revision -/

def isGameOverEmit : Emit → Bool
  | Emit.gameOver _ _ => true
  | _ => false

lemma getLast_some (r : Room) (w : Int)
    (h : getLastPlayerWithChips r = some w) : seatsWithChips r = [w] := by
  unfold getLastPlayerWithChips at h
  cases hs : seatsWithChips r with
  | nil => rw [hs] at h; simp at h
  | cons a l =>
    cases l with
    | nil =>
      rw [hs] at h
      simp only [Option.some.injEq] at h
      rw [h]
    | cons b l2 => rw [hs] at h; simp at h

lemma seatsWithChips_mem (r : Room) (w : Int)
    (h : w ∈ seatsWithChips r) : 0 < chipsAt r w := by
  unfold seatsWithChips at h
  have := List.of_mem_filter h
  simpa using this

lemma chipsAt_pos_isSome (r : Room) (w : Int) (h : 0 < chipsAt r w) :
    (playersAt r w).isSome = true := by
  unfold chipsAt at h
  cases hq : playersAt r w
  · rw [hq] at h; simp at h
  · rfl

/-- C3 (amended, positive part): in the `part_002` revision, whenever
exactly one seat `w` holds chips at the moment `finalizeTurn` runs for
an occupied seat, that single call emits `gameOver` exactly once, the
winner's chips grow by `centerPot`, the pot is reset to 0 — and
`currentPlayer` is left untouched (no Finished phase exists, nothing is
locked; see the counterexample for what later `rollDice` calls do). -/
theorem C3_gameOver_payout (st : StateP2) (seat : Int) (p : Player) (w : Int)
    (hp : playersAt st.room seat = some p)
    (hw : getLastPlayerWithChips st.room = some w) :
    ((finalizeTurnP2 st seat).2.filter isGameOverEmit).length = 1 ∧
    chipsAt (finalizeTurnP2 st seat).1.room w
      = chipsAt st.room w + st.room.centerPot ∧
    (finalizeTurnP2 st seat).1.room.centerPot = 0 ∧
    (finalizeTurnP2 st seat).1.room.currentPlayer
      = st.room.currentPlayer := by
  have hseats := getLast_some st.room w hw
  have hcount : countPlayersWithChips st.room = 1 := by
    unfold countPlayersWithChips
    rw [hseats]
    rfl
  have hwpos : 0 < chipsAt st.room w :=
    seatsWithChips_mem st.room w (by rw [hseats]; simp)
  by_cases hch : p.chips > 0
  · have hchipsA : ∀ t,
        chipsAt (setPlayer st.room seat (some { p with danger := false })) t
          = chipsAt st.room t :=
      fun t => chipsAt_setPlayer_samechips st.room seat p
        { p with danger := false } hp rfl t
    have hlastA : getLastPlayerWithChips
        (setPlayer st.room seat (some { p with danger := false })) = some w := by
      unfold getLastPlayerWithChips
      rw [seatsWithChips_congr st.room _ hchipsA, hseats]
    have hwsomeA : (playersAt
        (setPlayer st.room seat (some { p with danger := false })) w).isSome
          = true :=
      chipsAt_pos_isSome _ w (by rw [hchipsA w]; exact hwpos)
    unfold finalizeTurnP2
    rw [hp]
    dsimp only
    rw [if_pos hcount, if_pos hch, hlastA]
    dsimp only
    refine ⟨rfl, ?_, rfl, ?_⟩
    · rw [chipsAt_setPot, chipsAt_addChips, if_pos ⟨rfl, hwsomeA⟩,
          hchipsA w, centerPot_setPlayer]
    · show (addChips _ w _).currentPlayer = _
      rw [currentPlayer_addChips, currentPlayer_setPlayer]
  · have hwsome : (playersAt st.room w).isSome = true :=
      chipsAt_pos_isSome _ w hwpos
    unfold finalizeTurnP2
    rw [hp]
    dsimp only
    rw [if_pos hcount, if_neg hch, hw]
    dsimp only
    refine ⟨rfl, ?_, rfl, ?_⟩
    · rw [chipsAt_setPot, chipsAt_addChips, if_pos ⟨rfl, hwsome⟩]
    · show (addChips _ w _).currentPlayer = _
      rw [currentPlayer_addChips]

/-- The `part_002` room at the moment seat 0 becomes the only chip
holder: pot 2 still on the table, seat 0 to move. -/
def stWin : StateP2 :=
  { room := { p0 := some (mkPlayer "s0" "a" 5), p1 := some (mkPlayer "s1" "b" 0),
              p2 := some (mkPlayer "s2" "c" 0), p3 := some (mkPlayer "s3" "d" 0),
              centerPot := 2, currentPlayer := 0, gameStarted := true },
    grace := [] }

theorem C3_gameOver_payout_witness :
    ((finalizeTurnP2 stWin 0).2.filter isGameOverEmit).length = 1 ∧
    chipsAt (finalizeTurnP2 stWin 0).1.room 0
      = chipsAt stWin.room 0 + stWin.room.centerPot ∧
    (finalizeTurnP2 stWin 0).1.room.centerPot = 0 ∧
    (finalizeTurnP2 stWin 0).1.room.currentPlayer
      = stWin.room.currentPlayer :=
  C3_gameOver_payout stWin 0 (mkPlayer "s0" "a" 5) 0 (by decide) (by decide)

/-- C3 (counterexample to the claim as stated): after the `gameOver` for
seat 0 fires (with the pot paid out), the room is not Finished in any
way.  The winner's own next `rollDice` is processed normally — here a
`Left` moves a chip to seat 1, mutating the room — and the `rollDice`
after that (seat 1, rolling a `Hub`) drives the room back to a single
chip holder and emits `gameOver` a second time. -/
theorem C3_not_final_after_gameOver :
    ((finalizeTurnP2 stWin 0).2.filter isGameOverEmit).length = 1 ∧
    (rollDiceP2 (finalizeTurnP2 stWin 0).1 "s0" ["Left"]).1.room
      ≠ (finalizeTurnP2 stWin 0).1.room ∧
    chipsAt (rollDiceP2 (finalizeTurnP2 stWin 0).1 "s0" ["Left"]).1.room 1 = 1 ∧
    ((rollDiceP2 (rollDiceP2 (finalizeTurnP2 stWin 0).1 "s0" ["Left"]).1
        "s1" ["Hub"]).2.filter isGameOverEmit).length = 1 := by
  decide
